import Mathlib

/-!
Shallow embedding of the route reconciliation core of
`unifi-thread-route-updater` (Go).

Modelling conventions used throughout this file:

* Go `map[string]V` values are modelled as association lists
  `List (String × V)` with `lookupKey` / `setKey` / `containsKey`
  mirroring map read, map write and the `_, ok := m[k]` idiom.
  Go map iteration order is unspecified; where the source iterates a
  map we iterate the association list in insertion order (none of the
  proved properties depend on iteration order).
* `time.Time` and `time.Duration` are modelled as `Int` nanosecond
  counts; `time.Time.Sub` is integer subtraction and duration
  comparison is integer comparison.
* The source's `compareRoutesWithGracePeriod` (src/routes.go:702)
  reads the clock itself via `currentTime := time.Now()`.  That clock
  reading is made explicit here as the `currentTime : Int` argument;
  everything else is a direct transcription of the function body.
* `net.IP` values are modelled as `List Nat` of byte values, with the
  Go `nil` IP represented by the empty list.
-/

/-- Association-list model of Go `map[string]V`: read `m[k]`. -/
def lookupKey {α : Type} : List (String × α) → String → Option α
  | [], _ => none
  | (k', v) :: rest, k => if k' = k then some v else lookupKey rest k

/-- Association-list model of Go `map[string]V`: the `_, ok := m[k]` test. -/
def containsKey {α : Type} (m : List (String × α)) (k : String) : Bool :=
  (lookupKey m k).isSome

/-- Association-list model of Go `map[string]V`: write `m[k] = v`. -/
def setKey {α : Type} : List (String × α) → String → α → List (String × α)
  | [], k, v => [(k, v)]
  | (k', v') :: rest, k, v =>
    if k' = k then (k', v) :: rest else (k', v') :: setKey rest k v

/-- Grace tracker: the Go `map[string]time.Time` (`routeLastSeen` /
`state.RouteLastSeen`), from route key to last-seen timestamp. -/
abbrev Tracker := List (String × Int)

/-- The Go struct `UbiquityStaticRoute` (src/main.go:129).  The Go field
`Type` is rendered `Type_` because `Type` is reserved in Lean. -/
structure UbiquityStaticRoute where
  ID : String
  Enabled : Bool
  Name : String
  Type_ : String
  StaticRouteNexthop : String
  StaticRouteNetwork : String
  StaticRouteType : String
  GatewayType : String
  GatewayDevice : String
  SiteID : String
deriving DecidableEq

/-- The route identity used everywhere in the source:
`fmt.Sprintf("%s->%s", route.StaticRouteNetwork, route.StaticRouteNexthop)`. -/
def routeKey (r : UbiquityStaticRoute) : String :=
  r.StaticRouteNetwork ++ "->" ++ r.StaticRouteNexthop

/-- Go `strings.Contains s sub`: `sub` occurs as a contiguous substring of `s`. -/
def goStringsContains (s sub : String) : Bool :=
  decide (List.IsInfix sub.toList s.toList)

/-- The `desiredMap` built by `compareRoutesWithGracePeriod`
(src/routes.go:708-712): key-indexed map of the desired routes. -/
def buildRouteMap (routes : List UbiquityStaticRoute) :
    List (String × UbiquityStaticRoute) :=
  routes.foldl (fun m r => setKey m (routeKey r) r) []

/-- The removal loop of `compareRoutesWithGracePeriod`
(src/routes.go:715-742): walk the current routes, collecting the routes
to remove and threading the mutated `routeLastSeen` tracker.  A current
route is a removal candidate when its key is absent from `desiredMap`
and its name contains the marker `"Thread route via"`; the candidate is
skipped while inside the grace period, and when it has never been seen
the tracker is seeded with `currentTime` instead of removing. -/
def removeLoop (desiredMap : List (String × UbiquityStaticRoute))
    (gracePeriod currentTime : Int) :
    List UbiquityStaticRoute → Tracker → List UbiquityStaticRoute × Tracker
  | [], tracker => ([], tracker)
  | r :: rest, tracker =>
    if containsKey desiredMap (routeKey r) = true then
      removeLoop desiredMap gracePeriod currentTime rest tracker
    else if goStringsContains r.Name "Thread route via" = true then
      match lookupKey tracker (routeKey r) with
      | some lastSeen =>
        if currentTime - lastSeen < gracePeriod then
          removeLoop desiredMap gracePeriod currentTime rest tracker
        else
          let res := removeLoop desiredMap gracePeriod currentTime rest tracker
          (r :: res.1, res.2)
      | none =>
        removeLoop desiredMap gracePeriod currentTime rest
          (setKey tracker (routeKey r) currentTime)
    else
      removeLoop desiredMap gracePeriod currentTime rest tracker

/-- Result of `compareRoutesWithGracePeriod`: the two returned lists plus
the `routeLastSeen` map, whose in-place mutation is modelled by returning
its final contents. -/
structure CompareResult where
  toAdd : List UbiquityStaticRoute
  toRemove : List UbiquityStaticRoute
  routeLastSeen : Tracker
deriving DecidableEq

/-- `compareRoutesWithGracePeriod` (src/routes.go:702-759).
`toRemove` and the mutated tracker come from the removal loop over
`current`; `toAdd` is the second loop, keeping every desired route whose
key is missing from the `currentMap` key set.  `currentTime` is the
function's own `time.Now()` reading made explicit. -/
def compareRoutesWithGracePeriod (current desired : List UbiquityStaticRoute)
    (routeLastSeen : Tracker) (gracePeriod currentTime : Int) : CompareResult :=
  { toAdd := desired.filter
      (fun r => !((current.map routeKey).contains (routeKey r)))
    toRemove :=
      (removeLoop (buildRouteMap desired) gracePeriod currentTime
        current routeLastSeen).1
    routeLastSeen :=
      (removeLoop (buildRouteMap desired) gracePeriod currentTime
        current routeLastSeen).2 }

/-- The tracker refresh performed by `updateUbiquityRoutes`
(src/routes.go:422-427) immediately before calling the comparison:
`state.RouteLastSeen[key] = routeUpdateTime` for every desired route. -/
def refreshLastSeen (routeLastSeen : Tracker)
    (desiredRoutes : List UbiquityStaticRoute) (routeUpdateTime : Int) : Tracker :=
  desiredRoutes.foldl (fun t r => setKey t (routeKey r) routeUpdateTime) routeLastSeen

/-- The reconcile-cycle fragment of `updateUbiquityRoutes`
(src/routes.go:422-430): refresh the last-seen tracker for every desired
route, then run `compareRoutesWithGracePeriod` on the refreshed tracker.
`routeUpdateTime` models the `time.Now()` read at src/routes.go:423 and
`currentTime` the later one inside the comparison. -/
def updateUbiquityRoutesCompare (currentRoutes desiredRoutes : List UbiquityStaticRoute)
    (routeLastSeen : Tracker) (gracePeriod routeUpdateTime currentTime : Int) :
    CompareResult :=
  compareRoutesWithGracePeriod currentRoutes desiredRoutes
    (refreshLastSeen routeLastSeen desiredRoutes routeUpdateTime)
    gracePeriod currentTime

theorem lookupKey_setKey_self {α : Type} (m : List (String × α)) (k : String) (v : α) :
    lookupKey (setKey m k v) k = some v := by
  induction m with
  | nil => simp [setKey, lookupKey]
  | cons p rest ih =>
    obtain ⟨k', v'⟩ := p
    by_cases h : k' = k
    · simp [setKey, h, lookupKey]
    · simp [setKey, h, lookupKey, ih]

theorem lookupKey_setKey_ne {α : Type} (m : List (String × α)) (k k' : String) (v : α)
    (h : k' ≠ k) : lookupKey (setKey m k v) k' = lookupKey m k' := by
  induction m with
  | nil =>
    have hk : ¬ k = k' := fun hh => h hh.symm
    simp [setKey, lookupKey, hk]
  | cons p rest ih =>
    obtain ⟨a, b⟩ := p
    by_cases ha : a = k
    · subst ha
      have hk : ¬ a = k' := fun hh => h hh.symm
      simp [setKey, lookupKey, hk]
    · simp [setKey, ha, lookupKey, ih]

theorem containsKey_setKey_iff {α : Type} (m : List (String × α)) (k0 k : String) (v : α) :
    containsKey (setKey m k0 v) k = true ↔ k = k0 ∨ containsKey m k = true := by
  by_cases h : k = k0
  · subst h
    simp [containsKey, lookupKey_setKey_self]
  · simp [containsKey, lookupKey_setKey_ne m k0 k v h, h]

theorem mem_iff_contains (l : List String) (a : String) :
    l.contains a = true ↔ a ∈ l := by
  induction l with
  | nil => simp
  | cons h t ih =>
    simp only [List.contains_cons, Bool.or_eq_true, beq_iff_eq, List.mem_cons, ih]

theorem containsKey_buildRouteMap_aux (routes : List UbiquityStaticRoute) :
    ∀ (m : List (String × UbiquityStaticRoute)) (k : String),
      containsKey (routes.foldl (fun m r => setKey m (routeKey r) r) m) k = true ↔
        containsKey m k = true ∨ k ∈ routes.map routeKey := by
  induction routes with
  | nil => simp
  | cons r rest ih =>
    intro m k
    simp only [List.foldl_cons, List.map_cons, List.mem_cons]
    rw [ih]
    rw [containsKey_setKey_iff]
    tauto

theorem containsKey_buildRouteMap (routes : List UbiquityStaticRoute) (k : String) :
    containsKey (buildRouteMap routes) k = true ↔ k ∈ routes.map routeKey := by
  rw [buildRouteMap, containsKey_buildRouteMap_aux]
  simp [containsKey, lookupKey]

theorem removeLoop_cons (dm : List (String × UbiquityStaticRoute)) (g n : Int)
    (r : UbiquityStaticRoute) (rest : List UbiquityStaticRoute) (tracker : Tracker) :
    removeLoop dm g n (r :: rest) tracker =
      if containsKey dm (routeKey r) = true then
        removeLoop dm g n rest tracker
      else if goStringsContains r.Name "Thread route via" = true then
        match lookupKey tracker (routeKey r) with
        | some lastSeen =>
          if n - lastSeen < g then removeLoop dm g n rest tracker
          else ((r :: (removeLoop dm g n rest tracker).1),
            (removeLoop dm g n rest tracker).2)
        | none => removeLoop dm g n rest (setKey tracker (routeKey r) n)
      else removeLoop dm g n rest tracker := by
  rw [removeLoop]

theorem removeLoop_cons_desired (dm : List (String × UbiquityStaticRoute)) (g n : Int)
    (r : UbiquityStaticRoute) (rest : List UbiquityStaticRoute) (tracker : Tracker)
    (h1 : containsKey dm (routeKey r) = true) :
    removeLoop dm g n (r :: rest) tracker = removeLoop dm g n rest tracker := by
  simp [removeLoop_cons, h1]

theorem removeLoop_cons_unmanaged (dm : List (String × UbiquityStaticRoute)) (g n : Int)
    (r : UbiquityStaticRoute) (rest : List UbiquityStaticRoute) (tracker : Tracker)
    (h1 : containsKey dm (routeKey r) = false)
    (h2 : goStringsContains r.Name "Thread route via" = false) :
    removeLoop dm g n (r :: rest) tracker = removeLoop dm g n rest tracker := by
  simp [removeLoop_cons, h1, h2]

theorem removeLoop_cons_within (dm : List (String × UbiquityStaticRoute)) (g n : Int)
    (r : UbiquityStaticRoute) (rest : List UbiquityStaticRoute) (tracker : Tracker)
    (ls : Int) (h1 : containsKey dm (routeKey r) = false)
    (h2 : goStringsContains r.Name "Thread route via" = true)
    (hl : lookupKey tracker (routeKey r) = some ls) (h3 : n - ls < g) :
    removeLoop dm g n (r :: rest) tracker = removeLoop dm g n rest tracker := by
  simp [removeLoop_cons, h1, h2, hl, h3]

theorem removeLoop_cons_expired (dm : List (String × UbiquityStaticRoute)) (g n : Int)
    (r : UbiquityStaticRoute) (rest : List UbiquityStaticRoute) (tracker : Tracker)
    (ls : Int) (h1 : containsKey dm (routeKey r) = false)
    (h2 : goStringsContains r.Name "Thread route via" = true)
    (hl : lookupKey tracker (routeKey r) = some ls) (h3 : ¬ n - ls < g) :
    removeLoop dm g n (r :: rest) tracker =
      ((r :: (removeLoop dm g n rest tracker).1),
        (removeLoop dm g n rest tracker).2) := by
  simp [removeLoop_cons, h1, h2, hl, h3]

theorem removeLoop_cons_seed (dm : List (String × UbiquityStaticRoute)) (g n : Int)
    (r : UbiquityStaticRoute) (rest : List UbiquityStaticRoute) (tracker : Tracker)
    (h1 : containsKey dm (routeKey r) = false)
    (h2 : goStringsContains r.Name "Thread route via" = true)
    (hl : lookupKey tracker (routeKey r) = none) :
    removeLoop dm g n (r :: rest) tracker =
      removeLoop dm g n rest (setKey tracker (routeKey r) n) := by
  simp [removeLoop_cons, h1, h2, hl]

theorem removeLoop_step_cases (dm : List (String × UbiquityStaticRoute)) (g n : Int)
    (r : UbiquityStaticRoute) (rest : List UbiquityStaticRoute) (tracker : Tracker)
    (P : List UbiquityStaticRoute × Tracker → Prop)
    (hdes : containsKey dm (routeKey r) = true → P (removeLoop dm g n rest tracker))
    (hunm : containsKey dm (routeKey r) = false →
      goStringsContains r.Name "Thread route via" = false →
      P (removeLoop dm g n rest tracker))
    (hwithin : ∀ ls : Int, containsKey dm (routeKey r) = false →
      goStringsContains r.Name "Thread route via" = true →
      lookupKey tracker (routeKey r) = some ls → n - ls < g →
      P (removeLoop dm g n rest tracker))
    (hexp : ∀ ls : Int, containsKey dm (routeKey r) = false →
      goStringsContains r.Name "Thread route via" = true →
      lookupKey tracker (routeKey r) = some ls → ¬ n - ls < g →
      P ((r :: (removeLoop dm g n rest tracker).1),
        (removeLoop dm g n rest tracker).2))
    (hseed : containsKey dm (routeKey r) = false →
      goStringsContains r.Name "Thread route via" = true →
      lookupKey tracker (routeKey r) = none →
      P (removeLoop dm g n rest (setKey tracker (routeKey r) n))) :
    P (removeLoop dm g n (r :: rest) tracker) := by
  cases h1 : containsKey dm (routeKey r) with
  | true => rw [removeLoop_cons_desired dm g n r rest tracker h1]; exact hdes h1
  | false =>
    cases h2 : goStringsContains r.Name "Thread route via" with
    | false =>
      rw [removeLoop_cons_unmanaged dm g n r rest tracker h1 h2]
      exact hunm h1 h2
    | true =>
      rcases hl : lookupKey tracker (routeKey r) with _ | ls
      · rw [removeLoop_cons_seed dm g n r rest tracker h1 h2 hl]
        exact hseed h1 h2 hl
      · by_cases h3 : n - ls < g
        · rw [removeLoop_cons_within dm g n r rest tracker ls h1 h2 hl h3]
          exact hwithin ls h1 h2 hl h3
        · rw [removeLoop_cons_expired dm g n r rest tracker ls h1 h2 hl h3]
          exact hexp ls h1 h2 hl h3

theorem removeLoop_lookup_some (dm : List (String × UbiquityStaticRoute))
    (g n : Int) (cur : List UbiquityStaticRoute) :
    ∀ (tracker : Tracker) (k : String) (v : Int),
      lookupKey tracker k = some v →
      lookupKey (removeLoop dm g n cur tracker).2 k = some v := by
  induction cur with
  | nil => intro tracker k v h; simpa [removeLoop] using h
  | cons r rest ih =>
    intro tracker k v h
    refine removeLoop_step_cases dm g n r rest tracker
      (fun res => lookupKey res.2 k = some v) ?_ ?_ ?_ ?_ ?_
    · intro _; exact ih tracker k v h
    · intro _ _; exact ih tracker k v h
    · intro ls _ _ _ _; exact ih tracker k v h
    · intro ls _ _ _ _; exact ih tracker k v h
    · intro _ _ hl
      have hk : k ≠ routeKey r := by
        intro he; rw [he, hl] at h; exact Option.noConfusion h
      refine ih _ k v ?_
      rw [lookupKey_setKey_ne _ _ _ _ hk, h]

theorem removeLoop_lookup_seeds (dm : List (String × UbiquityStaticRoute))
    (g n : Int) (cur : List UbiquityStaticRoute) :
    ∀ (tracker : Tracker) (r : UbiquityStaticRoute), r ∈ cur →
      containsKey dm (routeKey r) = false →
      goStringsContains r.Name "Thread route via" = true →
      lookupKey tracker (routeKey r) = none →
      lookupKey (removeLoop dm g n cur tracker).2 (routeKey r) = some n := by
  induction cur with
  | nil => intro tracker r h; exact absurd h (List.not_mem_nil r)
  | cons head rest ih =>
    intro tracker r hmem hdm hmk htr
    rcases List.mem_cons.mp hmem with he | hrest
    · subst he
      rw [removeLoop_cons_seed dm g n r rest tracker hdm hmk htr]
      exact removeLoop_lookup_some dm g n rest _ _ _ (lookupKey_setKey_self tracker _ n)
    · refine removeLoop_step_cases dm g n head rest tracker
        (fun res => lookupKey res.2 (routeKey r) = some n) ?_ ?_ ?_ ?_ ?_
      · intro _; exact ih tracker r hrest hdm hmk htr
      · intro _ _; exact ih tracker r hrest hdm hmk htr
      · intro ls _ _ _ _; exact ih tracker r hrest hdm hmk htr
      · intro ls _ _ _ _; exact ih tracker r hrest hdm hmk htr
      · intro _ _ hl
        by_cases hk : routeKey r = routeKey head
        · rw [hk]
          exact removeLoop_lookup_some dm g n rest _ _ _
            (lookupKey_setKey_self tracker _ n)
        · refine ih _ r hrest hdm hmk ?_
          rw [lookupKey_setKey_ne _ _ _ _ hk, htr]

theorem removeLoop_lookup_none (dm : List (String × UbiquityStaticRoute))
    (g n : Int) (cur : List UbiquityStaticRoute) :
    ∀ (tracker : Tracker) (k : String),
      lookupKey tracker k = none →
      lookupKey (removeLoop dm g n cur tracker).2 k = none ∨
        (lookupKey (removeLoop dm g n cur tracker).2 k = some n ∧
          ∃ r, r ∈ cur ∧ routeKey r = k ∧
            goStringsContains r.Name "Thread route via" = true ∧
            containsKey dm k = false) := by
  induction cur with
  | nil => intro tracker k h; left; simpa [removeLoop] using h
  | cons head rest ih =>
    intro tracker k h
    have liftRest : ∀ t : Tracker,
        (lookupKey (removeLoop dm g n rest t).2 k = none ∨
          (lookupKey (removeLoop dm g n rest t).2 k = some n ∧
            ∃ r, r ∈ rest ∧ routeKey r = k ∧
              goStringsContains r.Name "Thread route via" = true ∧
              containsKey dm k = false)) →
        (lookupKey (removeLoop dm g n rest t).2 k = none ∨
          (lookupKey (removeLoop dm g n rest t).2 k = some n ∧
            ∃ r, r ∈ head :: rest ∧ routeKey r = k ∧
              goStringsContains r.Name "Thread route via" = true ∧
              containsKey dm k = false)) := by
      intro t hyp
      rcases hyp with hn | ⟨hs, r, hr, hk, hm, hc⟩
      · exact Or.inl hn
      · exact Or.inr ⟨hs, r, List.mem_cons_of_mem head hr, hk, hm, hc⟩
    refine removeLoop_step_cases dm g n head rest tracker
      (fun res => lookupKey res.2 k = none ∨
        (lookupKey res.2 k = some n ∧
          ∃ r, r ∈ head :: rest ∧ routeKey r = k ∧
            goStringsContains r.Name "Thread route via" = true ∧
            containsKey dm k = false)) ?_ ?_ ?_ ?_ ?_
    · intro _; exact liftRest tracker (ih tracker k h)
    · intro _ _; exact liftRest tracker (ih tracker k h)
    · intro ls _ _ _ _; exact liftRest tracker (ih tracker k h)
    · intro ls _ _ _ _; exact liftRest tracker (ih tracker k h)
    · intro h1 h2 hl
      by_cases hk : routeKey head = k
      · right
        constructor
        · rw [← hk]
          exact removeLoop_lookup_some dm g n rest _ _ _
            (lookupKey_setKey_self tracker _ n)
        · exact ⟨head, List.mem_cons_self head rest, hk, h2, hk ▸ h1⟩
      · have hk' : k ≠ routeKey head := fun he => hk he.symm
        refine liftRest _ (ih _ k ?_)
        rw [lookupKey_setKey_ne _ _ _ _ hk', h]

theorem removeLoop_mem_of (dm : List (String × UbiquityStaticRoute))
    (g n : Int) (cur : List UbiquityStaticRoute) :
    ∀ (tracker : Tracker) (r : UbiquityStaticRoute) (ls : Int), r ∈ cur →
      containsKey dm (routeKey r) = false →
      goStringsContains r.Name "Thread route via" = true →
      lookupKey tracker (routeKey r) = some ls →
      ¬ n - ls < g →
      r ∈ (removeLoop dm g n cur tracker).1 := by
  induction cur with
  | nil => intro tracker r ls h; exact absurd h (List.not_mem_nil r)
  | cons head rest ih =>
    intro tracker r ls hmem hdm hmk htr hg
    rcases List.mem_cons.mp hmem with he | hrest
    · subst he
      rw [removeLoop_cons_expired dm g n r rest tracker ls hdm hmk htr hg]
      exact List.mem_cons_self r _
    · refine removeLoop_step_cases dm g n head rest tracker
        (fun res => r ∈ res.1) ?_ ?_ ?_ ?_ ?_
      · intro _; exact ih tracker r ls hrest hdm hmk htr hg
      · intro _ _; exact ih tracker r ls hrest hdm hmk htr hg
      · intro ls' _ _ _ _; exact ih tracker r ls hrest hdm hmk htr hg
      · intro ls' _ _ _ _
        exact List.mem_cons_of_mem head (ih tracker r ls hrest hdm hmk htr hg)
      · intro _ _ hl
        have hk : routeKey r ≠ routeKey head := by
          intro he; rw [← he, htr] at hl; exact Option.noConfusion hl
        refine ih _ r ls hrest hdm hmk ?_ hg
        rw [lookupKey_setKey_ne _ _ _ _ hk, htr]

theorem removeLoop_mem_inv (dm : List (String × UbiquityStaticRoute))
    (g n : Int) (cur : List UbiquityStaticRoute) :
    ∀ (tracker : Tracker) (r : UbiquityStaticRoute),
      r ∈ (removeLoop dm g n cur tracker).1 →
      r ∈ cur ∧ containsKey dm (routeKey r) = false ∧
        goStringsContains r.Name "Thread route via" = true ∧
        ((∃ ls, lookupKey tracker (routeKey r) = some ls ∧ ¬ n - ls < g) ∨
          (lookupKey tracker (routeKey r) = none ∧ ¬ n - n < g)) := by
  induction cur with
  | nil => intro tracker r h; simp [removeLoop] at h
  | cons head rest ih =>
    intro tracker r
    have liftConcl : ∀ t : Tracker,
        lookupKey t (routeKey r) = lookupKey tracker (routeKey r) →
        (r ∈ rest ∧ containsKey dm (routeKey r) = false ∧
          goStringsContains r.Name "Thread route via" = true ∧
          ((∃ ls, lookupKey t (routeKey r) = some ls ∧ ¬ n - ls < g) ∨
            (lookupKey t (routeKey r) = none ∧ ¬ n - n < g))) →
        (r ∈ head :: rest ∧ containsKey dm (routeKey r) = false ∧
          goStringsContains r.Name "Thread route via" = true ∧
          ((∃ ls, lookupKey tracker (routeKey r) = some ls ∧ ¬ n - ls < g) ∨
            (lookupKey tracker (routeKey r) = none ∧ ¬ n - n < g))) := by
      intro t heq ⟨hm, hc, hk, hd⟩
      exact ⟨List.mem_cons_of_mem head hm, hc, hk, heq ▸ hd⟩
    refine removeLoop_step_cases dm g n head rest tracker
      (fun res => r ∈ res.1 →
        r ∈ head :: rest ∧ containsKey dm (routeKey r) = false ∧
          goStringsContains r.Name "Thread route via" = true ∧
          ((∃ ls, lookupKey tracker (routeKey r) = some ls ∧ ¬ n - ls < g) ∨
            (lookupKey tracker (routeKey r) = none ∧ ¬ n - n < g))) ?_ ?_ ?_ ?_ ?_
    · intro _ h; exact liftConcl tracker rfl (ih tracker r h)
    · intro _ _ h; exact liftConcl tracker rfl (ih tracker r h)
    · intro ls _ _ _ _ h; exact liftConcl tracker rfl (ih tracker r h)
    · intro ls h1 h2 hl h3 h
      rcases List.mem_cons.mp h with he | htail
      · subst he
        exact ⟨List.mem_cons_self r _, h1, h2, Or.inl ⟨ls, hl, h3⟩⟩
      · exact liftConcl tracker rfl (ih tracker r htail)
    · intro h1 h2 hl h
      have hconc := ih _ r h
      by_cases hk : routeKey r = routeKey head
      · obtain ⟨hm, hc, hmk, hd⟩ := hconc
        refine ⟨List.mem_cons_of_mem head hm, hc, hmk, ?_⟩
        rcases hd with ⟨ls, hls, hg⟩ | ⟨hnone, hg0⟩
        · rw [hk, lookupKey_setKey_self] at hls
          cases hls
          exact Or.inr ⟨hk ▸ hl, hg⟩
        · rw [hk, lookupKey_setKey_self] at hnone
          exact Option.noConfusion hnone
      · refine liftConcl _ ?_ hconc
        exact lookupKey_setKey_ne _ _ _ _ hk

theorem refreshLastSeen_keeps (ds : List UbiquityStaticRoute) :
    ∀ (t : Tracker) (tu : Int) (k : String), lookupKey t k = some tu →
      lookupKey (refreshLastSeen t ds tu) k = some tu := by
  induction ds with
  | nil => intro t tu k h; exact h
  | cons d rest ih =>
    intro t tu k h
    show lookupKey (refreshLastSeen (setKey t (routeKey d) tu) rest tu) k = some tu
    refine ih _ tu k ?_
    by_cases hk : k = routeKey d
    · rw [hk, lookupKey_setKey_self]
    · rw [lookupKey_setKey_ne _ _ _ _ hk]; exact h

theorem refreshLastSeen_mem (ds : List UbiquityStaticRoute) :
    ∀ (t : Tracker) (tu : Int) (r : UbiquityStaticRoute), r ∈ ds →
      lookupKey (refreshLastSeen t ds tu) (routeKey r) = some tu := by
  induction ds with
  | nil => intro t tu r h; exact absurd h (List.not_mem_nil r)
  | cons d rest ih =>
    intro t tu r h
    show lookupKey (refreshLastSeen (setKey t (routeKey d) tu) rest tu) (routeKey r) = some tu
    rcases List.mem_cons.mp h with he | hrest
    · subst he
      exact refreshLastSeen_keeps rest _ tu _ (lookupKey_setKey_self t _ tu)
    · exact ih _ tu r hrest

/-- Concrete managed route (name carries the `"Thread route via"` marker),
used as an evaluation input for witnesses and counterexamples. -/
def sampleThreadRoute : UbiquityStaticRoute :=
  { ID := "65a0"
    Enabled := true
    Name := "Thread route via living-room"
    Type_ := "static-route"
    StaticRouteNexthop := "2001:470:abcd::1"
    StaticRouteNetwork := "fd00:1:2:3::/64"
    StaticRouteType := "nexthop-route"
    GatewayType := "default"
    GatewayDevice := "1c:0b:8b:12:64:88"
    SiteID := "default" }

/-- Concrete route without the managed marker (a manually configured route). -/
def manualRoute : UbiquityStaticRoute :=
  { ID := "65a1"
    Enabled := true
    Name := "My VPN route"
    Type_ := "static-route"
    StaticRouteNexthop := "2001:470:abcd::2"
    StaticRouteNetwork := "fd00:9:9:9::/64"
    StaticRouteType := "nexthop-route"
    GatewayType := "default"
    GatewayDevice := "1c:0b:8b:12:64:88"
    SiteID := "default" }

/-- Concrete desired route with a key distinct from the two above. -/
def sampleDesiredRoute : UbiquityStaticRoute :=
  { ID := ""
    Enabled := true
    Name := "Thread route via kitchen"
    Type_ := "static-route"
    StaticRouteNexthop := "2001:470:abcd::3"
    StaticRouteNetwork := "fd00:4:5:6::/64"
    StaticRouteType := "nexthop-route"
    GatewayType := "default"
    GatewayDevice := "1c:0b:8b:12:64:88"
    SiteID := "" }

/-- C1: in every reconciler call, a current route carrying the managed-label
marker, whose route key is absent from the desired set and which has a tracker
entry `lastSeen`, is placed in `toRemove` if and only if
`currentTime - lastSeen ≥ gracePeriod`: exactly at expiry it is removed,
strictly inside the grace period it is not. -/
theorem grace_removal_iff_expired
    (current desired : List UbiquityStaticRoute) (tracker : Tracker)
    (gracePeriod currentTime lastSeen : Int) (r : UbiquityStaticRoute)
    (hmem : r ∈ current)
    (hmarker : goStringsContains r.Name "Thread route via" = true)
    (hdesired : routeKey r ∉ desired.map routeKey)
    (htracker : lookupKey tracker (routeKey r) = some lastSeen) :
    r ∈ (compareRoutesWithGracePeriod current desired tracker
        gracePeriod currentTime).toRemove ↔
      gracePeriod ≤ currentTime - lastSeen := by
  have hfalse : containsKey (buildRouteMap desired) (routeKey r) = false := by
    rw [← Bool.not_eq_true, containsKey_buildRouteMap]; exact hdesired
  constructor
  · intro h
    have hinv := removeLoop_mem_inv (buildRouteMap desired) gracePeriod currentTime
      current tracker r h
    rcases hinv.2.2.2 with ⟨ls, hls, hg⟩ | ⟨hnone, _⟩
    · rw [htracker] at hls
      injection hls with hls'
      omega
    · rw [htracker] at hnone; exact Option.noConfusion hnone
  · intro h
    exact removeLoop_mem_of (buildRouteMap desired) gracePeriod currentTime current
      tracker r lastSeen hmem hfalse hmarker htracker (by omega)

/-- C1 witness: a managed route with tracker entry 0, grace period 600 and
clock reading 600 (exactly at expiry) is removed. -/
theorem grace_removal_iff_expired_witness :
    goStringsContains sampleThreadRoute.Name "Thread route via" = true ∧
    sampleThreadRoute ∈ (compareRoutesWithGracePeriod [sampleThreadRoute] []
      [(routeKey sampleThreadRoute, 0)] 600 600).toRemove :=
  ⟨by decide,
    (grace_removal_iff_expired [sampleThreadRoute] [] [(routeKey sampleThreadRoute, 0)]
      600 600 0 sampleThreadRoute (by decide) (by decide) (by decide) (by decide)).mpr
      (by decide)⟩

/-- C2 counterexample: a current route lacking the managed marker, absent from
the desired set and with no prior tracker entry, yields no removal, but NO
tracker entry is created for its key either (the seeding at src/routes.go:737
only runs for routes whose name contains the marker), contradicting the
claim's unconditional "a tracker entry mapping that RouteKey to now is
created". -/
theorem unseen_route_counterexample :
    manualRoute ∈ [manualRoute] ∧
    routeKey manualRoute ∉ ([] : List UbiquityStaticRoute).map routeKey ∧
    lookupKey ([] : Tracker) (routeKey manualRoute) = none ∧
    manualRoute ∉ (compareRoutesWithGracePeriod [manualRoute] [] [] 600
      1000).toRemove ∧
    lookupKey (compareRoutesWithGracePeriod [manualRoute] [] [] 600
      1000).routeLastSeen (routeKey manualRoute) = none := by
  decide

/-- C2 (amended): in every reconciler call, a current route CARRYING THE
MANAGED-LABEL MARKER, absent from the desired set, with no prior tracker entry
for its key, gets a tracker entry mapping that key to the call's clock reading
(so it earns a full grace period), and — provided the grace period is positive
— it is not placed in `toRemove` this cycle. -/
theorem unseen_managed_route_grace
    (current desired : List UbiquityStaticRoute) (tracker : Tracker)
    (gracePeriod currentTime : Int) (r : UbiquityStaticRoute)
    (hmem : r ∈ current)
    (hmarker : goStringsContains r.Name "Thread route via" = true)
    (hdesired : routeKey r ∉ desired.map routeKey)
    (htracker : lookupKey tracker (routeKey r) = none) :
    lookupKey (compareRoutesWithGracePeriod current desired tracker gracePeriod
        currentTime).routeLastSeen (routeKey r) = some currentTime ∧
    (0 < gracePeriod →
      r ∉ (compareRoutesWithGracePeriod current desired tracker gracePeriod
        currentTime).toRemove) := by
  have hfalse : containsKey (buildRouteMap desired) (routeKey r) = false := by
    rw [← Bool.not_eq_true, containsKey_buildRouteMap]; exact hdesired
  constructor
  · exact removeLoop_lookup_seeds (buildRouteMap desired) gracePeriod currentTime
      current tracker r hmem hfalse hmarker htracker
  · intro hg h
    have hinv := removeLoop_mem_inv (buildRouteMap desired) gracePeriod currentTime
      current tracker r h
    rcases hinv.2.2.2 with ⟨ls, hls, _⟩ | ⟨_, hg0⟩
    · rw [htracker] at hls; exact Option.noConfusion hls
    · exact hg0 (by omega)

/-- C2 witness: a managed route never seen before is seeded at the clock
reading and survives the cycle. -/
theorem unseen_managed_route_grace_witness :
    lookupKey (compareRoutesWithGracePeriod [sampleThreadRoute] [] [] 600
      1000).routeLastSeen (routeKey sampleThreadRoute) = some 1000 ∧
    sampleThreadRoute ∉ (compareRoutesWithGracePeriod [sampleThreadRoute] [] []
      600 1000).toRemove :=
  ⟨(unseen_managed_route_grace [sampleThreadRoute] [] [] 600 1000 sampleThreadRoute
      (by decide) (by decide) (by decide) rfl).1,
    (unseen_managed_route_grace [sampleThreadRoute] [] [] 600 1000 sampleThreadRoute
      (by decide) (by decide) (by decide) rfl).2 (by decide)⟩

/-- C3: a current route whose name lacks the managed-label marker is never
placed in `toRemove`, whatever the desired set, tracker and grace period. -/
theorem unmanaged_never_removed
    (current desired : List UbiquityStaticRoute) (tracker : Tracker)
    (gracePeriod currentTime : Int) (r : UbiquityStaticRoute)
    (hmarker : goStringsContains r.Name "Thread route via" = false) :
    r ∉ (compareRoutesWithGracePeriod current desired tracker gracePeriod
      currentTime).toRemove := by
  intro h
  have hinv := removeLoop_mem_inv (buildRouteMap desired) gracePeriod currentTime
    current tracker r h
  have := hinv.2.2.1
  rw [hmarker] at this
  exact Bool.noConfusion this

/-- C3 witness: an unmarked route absent from the desired set, with an
expired tracker entry, is still not removed. -/
theorem unmanaged_never_removed_witness :
    goStringsContains manualRoute.Name "Thread route via" = false ∧
    manualRoute ∉ (compareRoutesWithGracePeriod [manualRoute] []
      [(routeKey manualRoute, 0)] 10 1000).toRemove :=
  ⟨by decide,
    unmanaged_never_removed [manualRoute] [] [(routeKey manualRoute, 0)] 10 1000
      manualRoute (by decide)⟩

/-- C5: the reconcile cycle (the refresh loop of `updateUbiquityRoutes`
directly followed by `compareRoutesWithGracePeriod`) leaves
`graceTracker[key] = routeUpdateTime` for every route in `desiredRoutes`,
whether or not that route is newly added: the refresh loop writes the entry
unconditionally, and the comparison never disturbs an existing entry. -/
theorem cycle_refreshes_every_desired
    (currentRoutes desiredRoutes : List UbiquityStaticRoute) (tracker : Tracker)
    (gracePeriod routeUpdateTime currentTime : Int) (r : UbiquityStaticRoute)
    (hmem : r ∈ desiredRoutes) :
    lookupKey (updateUbiquityRoutesCompare currentRoutes desiredRoutes tracker
        gracePeriod routeUpdateTime currentTime).routeLastSeen (routeKey r) =
      some routeUpdateTime := by
  have href : lookupKey (refreshLastSeen tracker desiredRoutes routeUpdateTime)
      (routeKey r) = some routeUpdateTime :=
    refreshLastSeen_mem desiredRoutes tracker routeUpdateTime r hmem
  exact removeLoop_lookup_some (buildRouteMap desiredRoutes) gracePeriod currentTime
    currentRoutes _ _ _ href

/-- C5 witness: a desired route that is already current (so not newly added)
still has its tracker entry refreshed to `routeUpdateTime` by the cycle. -/
theorem cycle_refreshes_every_desired_witness :
    sampleThreadRoute ∈ [sampleThreadRoute] ∧
    lookupKey (updateUbiquityRoutesCompare [sampleThreadRoute] [sampleThreadRoute]
        [(routeKey sampleThreadRoute, 5)] 600 1000 1001).routeLastSeen
      (routeKey sampleThreadRoute) = some 1000 :=
  ⟨by decide,
    cycle_refreshes_every_desired [sampleThreadRoute] [sampleThreadRoute]
      [(routeKey sampleThreadRoute, 5)] 600 1000 1001 sampleThreadRoute
      (by decide)⟩

/-- C6 counterexample: two calls with identical current routes, desired
routes, tracker contents and grace period, but different internal clock
readings (the `time.Now()` of src/routes.go:705, modelled as the explicit
`currentTime` argument) produce different `toRemove` lists — so the function
is not a deterministic computation over those four provided inputs alone, and
its time source is not a caller-injected parameter. -/
theorem compare_clock_counterexample :
    (compareRoutesWithGracePeriod [sampleThreadRoute] []
        [(routeKey sampleThreadRoute, 0)] 600 100).toRemove ≠
      (compareRoutesWithGracePeriod [sampleThreadRoute] []
        [(routeKey sampleThreadRoute, 0)] 600 700).toRemove := by
  decide

/-- C6 (amended): the reconciler obtains its time internally via `time.Now()`
rather than as a caller-injected parameter; with that clock reading made an
explicit fifth input `currentTime`, it is a pure deterministic computation:
`toAdd` does not depend on the clock reading at all, and two calls with
identical current routes, desired routes, tracker contents, grace period AND
clock reading produce identical results; the embedding is a total function
performing no I/O beyond that clock read. -/
theorem compare_pure_given_clock
    (current desired : List UbiquityStaticRoute) (tracker : Tracker)
    (gracePeriod n1 n2 : Int) :
    (compareRoutesWithGracePeriod current desired tracker gracePeriod n1).toAdd =
      (compareRoutesWithGracePeriod current desired tracker gracePeriod n2).toAdd ∧
    (n1 = n2 →
      compareRoutesWithGracePeriod current desired tracker gracePeriod n1 =
        compareRoutesWithGracePeriod current desired tracker gracePeriod n2) :=
  ⟨rfl, fun h => by rw [h]⟩

/-- C6 witness: the amended statement evaluated at concrete inputs. -/
theorem compare_pure_given_clock_witness :
    (compareRoutesWithGracePeriod [sampleThreadRoute] [sampleDesiredRoute] [] 600
        3).toAdd =
      (compareRoutesWithGracePeriod [sampleThreadRoute] [sampleDesiredRoute] [] 600
        9).toAdd ∧
    compareRoutesWithGracePeriod [sampleThreadRoute] [sampleDesiredRoute] [] 600 5 =
      compareRoutesWithGracePeriod [sampleThreadRoute] [sampleDesiredRoute] [] 600 5 :=
  ⟨(compare_pure_given_clock [sampleThreadRoute] [sampleDesiredRoute] [] 600 3 9).1,
    (compare_pure_given_clock [sampleThreadRoute] [sampleDesiredRoute] [] 600 5 5).2
      rfl⟩

/-- C7: a route whose key is present in both the current and the desired route
lists appears in neither `toAdd` nor `toRemove`. -/
theorem stable_route_untouched
    (current desired : List UbiquityStaticRoute) (tracker : Tracker)
    (gracePeriod currentTime : Int) (r : UbiquityStaticRoute)
    (hcur : routeKey r ∈ current.map routeKey)
    (hdes : routeKey r ∈ desired.map routeKey) :
    r ∉ (compareRoutesWithGracePeriod current desired tracker gracePeriod
        currentTime).toAdd ∧
    r ∉ (compareRoutesWithGracePeriod current desired tracker gracePeriod
        currentTime).toRemove := by
  constructor
  · intro h
    have hm := List.mem_filter.mp h
    have hc : (current.map routeKey).contains (routeKey r) = true :=
      (mem_iff_contains _ _).mpr hcur
    rw [Bool.not_eq_true', hc] at hm
    exact Bool.noConfusion hm.2
  · intro h
    have hinv := removeLoop_mem_inv (buildRouteMap desired) gracePeriod currentTime
      current tracker r h
    have hct : containsKey (buildRouteMap desired) (routeKey r) = true :=
      (containsKey_buildRouteMap desired (routeKey r)).mpr hdes
    rw [hinv.2.1] at hct
    exact Bool.noConfusion hct

/-- C7 witness: a route present in both lists is untouched even with an
expired tracker entry. -/
theorem stable_route_untouched_witness :
    routeKey sampleThreadRoute ∈ [sampleThreadRoute].map routeKey ∧
    sampleThreadRoute ∉ (compareRoutesWithGracePeriod [sampleThreadRoute]
        [sampleThreadRoute] [(routeKey sampleThreadRoute, 0)] 10 1000).toAdd ∧
    sampleThreadRoute ∉ (compareRoutesWithGracePeriod [sampleThreadRoute]
        [sampleThreadRoute] [(routeKey sampleThreadRoute, 0)] 10 1000).toRemove :=
  ⟨by decide,
    (stable_route_untouched [sampleThreadRoute] [sampleThreadRoute]
      [(routeKey sampleThreadRoute, 0)] 10 1000 sampleThreadRoute
      (by decide) (by decide)).1,
    (stable_route_untouched [sampleThreadRoute] [sampleThreadRoute]
      [(routeKey sampleThreadRoute, 0)] 10 1000 sampleThreadRoute
      (by decide) (by decide)).2⟩

/-- C9: every element of `toAdd` is an element of `desired` whose key is
absent from `current`; every element of `toRemove` is an element of
`current`; consequently no route key occurs in both lists. -/
theorem action_lists_partition
    (current desired : List UbiquityStaticRoute) (tracker : Tracker)
    (gracePeriod currentTime : Int) :
    (∀ r ∈ (compareRoutesWithGracePeriod current desired tracker gracePeriod
        currentTime).toAdd, r ∈ desired ∧ routeKey r ∉ current.map routeKey) ∧
    (∀ r ∈ (compareRoutesWithGracePeriod current desired tracker gracePeriod
        currentTime).toRemove, r ∈ current) ∧
    (∀ ra ∈ (compareRoutesWithGracePeriod current desired tracker gracePeriod
        currentTime).toAdd,
      ∀ rb ∈ (compareRoutesWithGracePeriod current desired tracker gracePeriod
        currentTime).toRemove, routeKey ra ≠ routeKey rb) := by
  have haddMem : ∀ r ∈ (compareRoutesWithGracePeriod current desired tracker
      gracePeriod currentTime).toAdd, r ∈ desired ∧ routeKey r ∉ current.map routeKey := by
    intro r h
    have hm := List.mem_filter.mp h
    refine ⟨hm.1, ?_⟩
    intro hmem
    have hc := (mem_iff_contains (current.map routeKey) (routeKey r)).mpr hmem
    rw [Bool.not_eq_true', hc] at hm
    exact Bool.noConfusion hm.2
  have hremMem : ∀ r ∈ (compareRoutesWithGracePeriod current desired tracker
      gracePeriod currentTime).toRemove, r ∈ current := by
    intro r h
    exact (removeLoop_mem_inv (buildRouteMap desired) gracePeriod currentTime
      current tracker r h).1
  refine ⟨haddMem, hremMem, ?_⟩
  intro ra ha rb hb heq
  have hka := (haddMem ra ha).2
  have hkb : routeKey rb ∈ current.map routeKey :=
    List.mem_map_of_mem routeKey (hremMem rb hb)
  rw [heq] at hka
  exact hka hkb

/-- C9 witness: a cycle with one addition and one removal, evaluated
concretely; the added route comes from desired, the removed one from current,
and their keys differ. -/
theorem action_lists_partition_witness :
    sampleDesiredRoute ∈ (compareRoutesWithGracePeriod [sampleThreadRoute]
        [sampleDesiredRoute] [(routeKey sampleThreadRoute, 0)] 10 1000).toAdd ∧
    sampleThreadRoute ∈ (compareRoutesWithGracePeriod [sampleThreadRoute]
        [sampleDesiredRoute] [(routeKey sampleThreadRoute, 0)] 10 1000).toRemove ∧
    (sampleDesiredRoute ∈ [sampleDesiredRoute] ∧
      routeKey sampleDesiredRoute ∉ [sampleThreadRoute].map routeKey) ∧
    routeKey sampleDesiredRoute ≠ routeKey sampleThreadRoute :=
  ⟨by decide, by decide,
    (action_lists_partition [sampleThreadRoute] [sampleDesiredRoute]
      [(routeKey sampleThreadRoute, 0)] 10 1000).1 sampleDesiredRoute (by decide),
    (action_lists_partition [sampleThreadRoute] [sampleDesiredRoute]
      [(routeKey sampleThreadRoute, 0)] 10 1000).2.2 sampleDesiredRoute (by decide)
      sampleThreadRoute (by decide)⟩

/-- C10: the comparison never deletes or overwrites an existing tracker entry:
every pre-existing entry keeps its exact value across the call, and any key
that gains an entry maps to the call's clock reading and is the key of a
managed current route absent from the desired set. -/
theorem tracker_frame
    (current desired : List UbiquityStaticRoute) (tracker : Tracker)
    (gracePeriod currentTime : Int) :
    (∀ (k : String) (v : Int), lookupKey tracker k = some v →
      lookupKey (compareRoutesWithGracePeriod current desired tracker gracePeriod
        currentTime).routeLastSeen k = some v) ∧
    (∀ k : String, lookupKey tracker k = none →
      lookupKey (compareRoutesWithGracePeriod current desired tracker gracePeriod
          currentTime).routeLastSeen k = none ∨
        (lookupKey (compareRoutesWithGracePeriod current desired tracker gracePeriod
            currentTime).routeLastSeen k = some currentTime ∧
          ∃ r, r ∈ current ∧ routeKey r = k ∧
            goStringsContains r.Name "Thread route via" = true ∧
            routeKey r ∉ desired.map routeKey)) := by
  constructor
  · intro k v h
    exact removeLoop_lookup_some (buildRouteMap desired) gracePeriod currentTime
      current tracker k v h
  · intro k h
    rcases removeLoop_lookup_none (buildRouteMap desired) gracePeriod currentTime
      current tracker k h with hn | ⟨hs, r, hr, hk, hm, hc⟩
    · exact Or.inl hn
    · right
      refine ⟨hs, r, hr, hk, hm, ?_⟩
      intro hmem
      have hct := (containsKey_buildRouteMap desired (routeKey r)).mpr hmem
      rw [hk, hc] at hct
      exact Bool.noConfusion hct

/-- C10 witness: a pre-existing entry, even one belonging to a route being
removed this cycle, keeps its exact value. -/
theorem tracker_frame_witness :
    lookupKey [(routeKey sampleThreadRoute, 7)] (routeKey sampleThreadRoute) =
      some 7 ∧
    lookupKey (compareRoutesWithGracePeriod [sampleThreadRoute] []
        [(routeKey sampleThreadRoute, 7)] 10 1000).routeLastSeen
      (routeKey sampleThreadRoute) = some 7 :=
  ⟨by decide,
    (tracker_frame [sampleThreadRoute] [] [(routeKey sampleThreadRoute, 7)] 10
      1000).1 (routeKey sampleThreadRoute) 7 (by decide)⟩

/-- Hex digit value of a character (the per-character step of Go net.xtoi). -/
def hexDigitVal (c : Char) : Option Nat :=
  if '0' ≤ c ∧ c ≤ '9' then some (c.toNat - '0'.toNat)
  else if 'a' ≤ c ∧ c ≤ 'f' then some (c.toNat - 'a'.toNat + 10)
  else if 'A' ≤ c ∧ c ≤ 'F' then some (c.toNat - 'A'.toNat + 10)
  else none

/-- Models Go net.xtoi: consume a hexadecimal prefix, accumulating into `n`.
Returns the value and the unconsumed remainder; `none` models `ok == false`
(no digits consumed, or the accumulator reaching the 0xFFFFFF cutoff). -/
def xtoiCore : List Char → Nat → Bool → Option (Nat × List Char)
  | [], n, seen => if seen then some (n, []) else none
  | c :: rest, n, seen =>
    match hexDigitVal c with
    | none => if seen then some (n, c :: rest) else none
    | some d =>
      let n' := n * 16 + d
      if 0xFFFFFF ≤ n' then none else xtoiCore rest n' true

/-- Go net.xtoi on a character list. -/
def xtoi (s : List Char) : Option (Nat × List Char) := xtoiCore s 0 false

/-- Models Go net.dtoi: consume a decimal prefix, with the same 0xFFFFFF
cutoff behaviour (`none` models `ok == false`). -/
def dtoiCore : List Char → Nat → Bool → Option (Nat × List Char)
  | [], n, seen => if seen then some (n, []) else none
  | c :: rest, n, seen =>
    if '0' ≤ c ∧ c ≤ '9' then
      let n' := n * 10 + (c.toNat - '0'.toNat)
      if 0xFFFFFF ≤ n' then none else dtoiCore rest n' true
    else if seen then some (n, c :: rest) else none

/-- Go net.dtoi on a character list. -/
def dtoi (s : List Char) : Option (Nat × List Char) := dtoiCore s 0 false

/-- One dotted-decimal octet of Go net.parseIPv4: a decimal field that must
be at most 255 and must not have a leading zero. -/
def parseOctet (s : List Char) : Option (Nat × List Char) :=
  match dtoi s with
  | none => none
  | some (n, rest) =>
    if 255 < n then none
    else if 1 < s.length - rest.length ∧ s.head? = some '0' then none
    else some (n, rest)

/-- Expect and consume a literal dot. -/
def expectDot : List Char → Option (List Char)
  | '.' :: rest => some rest
  | _ => none

/-- Models Go net.parseIPv4 (the loop over the four fields, unrolled):
four dot-separated decimal octets consuming the whole input. -/
def parseIPv4 (s : List Char) : Option (List Nat) := do
  let (a, s) ← parseOctet s
  let s ← expectDot s
  let (b, s) ← parseOctet s
  let s ← expectDot s
  let (c, s) ← parseOctet s
  let s ← expectDot s
  let (d, s) ← parseOctet s
  if s.isEmpty then pure [a, b, c, d] else none

/-- The fixed 12-byte marker of an IPv4-in-IPv6 address (Go v4InV6Prefix). -/
def v4InV6Pref : List Nat := [0, 0, 0, 0, 0, 0, 0, 0, 0, 0, 0xff, 0xff]

/-- The 16-byte form of an IPv4 address (Go net.IPv4). -/
def v4InV6 (o : List Nat) : List Nat := v4InV6Pref ++ o

/-- The main loop of Go net.parseIPv6.  `acc` is the bytes written so far
(Go's `i` is `acc.length`), `ell` the recorded ellipsis byte position.
`fuel` bounds the iterations: each pass writes at least two bytes and the
loop stops at sixteen, so fuel 9 is never exhausted. -/
def parseIPv6Loop : Nat → List Char → List Nat → Option Nat →
    Option (List Nat × Option Nat)
  | 0, _, _, _ => none
  | fuel + 1, s, acc, ell =>
    if 16 ≤ acc.length then
      if s.isEmpty then some (acc, ell) else none
    else
      match xtoi s with
      | none => none
      | some (n, rest) =>
        if 0xFFFF < n then none
        else if rest.head? = some '.' then
          if ell = none ∧ acc.length ≠ 12 then none
          else if 16 < acc.length + 4 then none
          else
            match parseIPv4 s with
            | none => none
            | some o => some (acc ++ o, ell)
        else
          let acc' := acc ++ [n / 256, n % 256]
          if rest.isEmpty then some (acc', ell)
          else
            match rest with
            | ':' :: [] => none
            | ':' :: ':' :: rest2 =>
              if ell.isSome then none
              else if rest2.isEmpty then some (acc', some acc'.length)
              else parseIPv6Loop fuel rest2 acc' (some acc'.length)
            | ':' :: rest2 => parseIPv6Loop fuel rest2 acc' ell
            | _ => none

/-- Models Go net.parseIPv6: leading `::` handling, the group loop, and the
final zero-expansion at the ellipsis. -/
def parseIPv6 (s0 : List Char) : Option (List Nat) :=
  let start : List Char × Option Nat :=
    match s0 with
    | ':' :: ':' :: rest => (rest, some 0)
    | _ => (s0, none)
  if start.2 = some 0 ∧ start.1.isEmpty then some (List.replicate 16 0)
  else
    match parseIPv6Loop 9 start.1 [] start.2 with
    | none => none
    | some (acc, ell) =>
      if acc.length < 16 then
        match ell with
        | none => none
        | some e =>
          some (acc.take e ++ List.replicate (16 - acc.length) 0 ++ acc.drop e)
      else if ell.isSome then none
      else some acc

/-- Models Go net.ParseIP: dispatch to parseIPv4 (yielding the 16-byte
IPv4-in-IPv6 form) or parseIPv6 on the first `.` or `:` seen; the Go `nil`
result is the empty list. -/
def parseIP (s : String) : List Nat :=
  let cs := s.toList
  match cs.find? (fun c => c == '.' || c == ':') with
  | some '.' =>
    match parseIPv4 cs with
    | some o => v4InV6 o
    | none => []
  | some ':' => (parseIPv6 cs).getD []
  | _ => []

/-- Split at the first '/' (Go byteIndex(s, '/') inside net.ParseCIDR). -/
def splitSlash : List Char → Option (List Char × List Char)
  | [] => none
  | '/' :: rest => some ([], rest)
  | c :: rest =>
    match splitSlash rest with
    | some (a, b) => some (c :: a, b)
    | none => none

/-- Models Go net.CIDRMask(n, bits): bits/8 bytes with the first n bits set. -/
def cidrMaskBytes (n bits : Nat) : List Nat :=
  (List.range (bits / 8)).map (fun i =>
    if 8 * (i + 1) ≤ n then 255
    else if n ≤ 8 * i then 0
    else 255 - (2 ^ (8 * (i + 1) - n) - 1))

/-- Models Go net.IP.Mask, including its 4/16-byte length adjustments. -/
def ipMask (ip mask : List Nat) : List Nat :=
  let mask := if mask.length = 16 ∧ ip.length = 4 ∧
      mask.take 12 = List.replicate 12 255 then mask.drop 12 else mask
  let ip := if mask.length = 4 ∧ ip.length = 16 ∧ ip.take 12 = v4InV6Pref
    then ip.drop 12 else ip
  if ip.length ≠ mask.length then []
  else (ip.zip mask).map (fun p => p.1 &&& p.2)

/-- Models Go net.ParseCIDR restricted to what the classifiers consume: the
masked network address (`network.IP`).  The address part is tried as IPv4
first, then IPv6; the mask length must be decimal, fully consumed and at most
the address bit width. -/
def parseCIDRNetwork (s : String) : Option (List Nat) :=
  match splitSlash s.toList with
  | none => none
  | some (addr, maskStr) =>
    let ipAndLen : List Nat × Nat :=
      match parseIPv4 addr with
      | some o => (v4InV6 o, 4)
      | none => ((parseIPv6 addr).getD [], 16)
    if ipAndLen.1.isEmpty then none
    else
      match dtoi maskStr with
      | none => none
      | some (n, rest) =>
        if ¬ rest.isEmpty then none
        else if 8 * ipAndLen.2 < n then none
        else some (ipMask ipAndLen.1 (cidrMaskBytes n (8 * ipAndLen.2)))

/-- Models Go net.IP.To4 (empty list for Go nil). -/
def ipTo4 (ip : List Nat) : List Nat :=
  if ip.length = 4 then ip
  else if ip.length = 16 ∧ ip.take 12 = v4InV6Pref then ip.drop 12
  else []

/-- Models Go net.IP.To16 (empty list for Go nil). -/
def ipTo16 (ip : List Nat) : List Nat :=
  if ip.length = 4 then v4InV6 ip
  else if ip.length = 16 then ip
  else []

/-- Models Go net.IP.Equal, including the mixed 4/16-byte comparisons. -/
def ipEqual (ip x : List Nat) : Bool :=
  if ip.length = x.length then ip == x
  else if ip.length = 4 ∧ x.length = 16 then
    x.take 12 == v4InV6Pref && x.drop 12 == ip
  else if ip.length = 16 ∧ x.length = 4 then
    ip.take 12 == v4InV6Pref && ip.drop 12 == x
  else false

/-- `isRoutableCIDR` (src/main.go:510-559): parse the CIDR; on parse failure
return false; then reject link-local fe80::/10, loopback ::1, unspecified ::,
multicast ff00::/8, documentation 2001:db8::/32, Teredo 2001::/32 and 6to4
2002::/16 networks; everything else (unique-local included) is routable. -/
def isRoutableCIDR (cidr : String) : Bool :=
  match parseCIDRNetwork cidr with
  | none => false
  | some ip =>
    if ip.getD 0 0 = 0xfe ∧ (ip.getD 1 0) &&& 0xc0 = 0x80 then false
    else if ipEqual ip (parseIP "::1") then false
    else if ipEqual ip (parseIP "::") then false
    else if ip.getD 0 0 = 0xff then false
    else if 4 ≤ ip.length ∧ ip.getD 0 0 = 0x20 ∧ ip.getD 1 0 = 0x01 ∧
      ip.getD 2 0 = 0x0d ∧ ip.getD 3 0 = 0xb8 then false
    else if 4 ≤ ip.length ∧ ip.getD 0 0 = 0x20 ∧ ip.getD 1 0 = 0x01 ∧
      ip.getD 2 0 = 0 ∧ ip.getD 3 0 = 0 then false
    else if 2 ≤ ip.length ∧ ip.getD 0 0 = 0x20 ∧ ip.getD 1 0 = 0x02 then false
    else true

/-- `isRoutableRouterAddress` (src/main.go:563-617): nil and IPv4 addresses
are not routable; genuine IPv6 addresses are rejected when link-local,
loopback, unspecified, multicast, unique-local (fc00::/7), documentation,
Teredo or 6to4; everything else is routable. -/
def isRoutableRouterAddress (ip : List Nat) : Bool :=
  if ip.isEmpty then false
  else if ¬ (ipTo4 ip).isEmpty then false
  else if ¬ (ipTo16 ip).isEmpty then
    if ip.getD 0 0 = 0xfe ∧ (ip.getD 1 0) &&& 0xc0 = 0x80 then false
    else if ipEqual ip (parseIP "::1") then false
    else if ipEqual ip (parseIP "::") then false
    else if ip.getD 0 0 = 0xff then false
    else if 1 ≤ ip.length ∧ (ip.getD 0 0) &&& 0xfe = 0xfc then false
    else if 4 ≤ ip.length ∧ ip.getD 0 0 = 0x20 ∧ ip.getD 1 0 = 0x01 ∧
      ip.getD 2 0 = 0x0d ∧ ip.getD 3 0 = 0xb8 then false
    else if 4 ≤ ip.length ∧ ip.getD 0 0 = 0x20 ∧ ip.getD 1 0 = 0x01 ∧
      ip.getD 2 0 = 0 ∧ ip.getD 3 0 = 0 then false
    else if 2 ≤ ip.length ∧ ip.getD 0 0 = 0x20 ∧ ip.getD 1 0 = 0x02 then false
    else true
  else true

/-- Lowercase hexadecimal of one 16-bit group without leading zeros
(Go appendHex inside net.IP.String). -/
def hexGroupStr (n : Nat) : String := String.mk (Nat.toDigits 16 n)

/-- Two-digit lowercase hexadecimal of one byte (Go hexString helper). -/
def hexByte (n : Nat) : String :=
  (if n < 16 then "0" else "") ++ String.mk (Nat.toDigits 16 n)

/-- The eight 16-bit groups of a 16-byte IPv6 address. -/
def ipGroups : List Nat → List Nat
  | b0 :: b1 :: rest => (b0 * 256 + b1) :: ipGroups rest
  | _ => []

/-- Scan for the longest run of zero groups (leftmost wins ties, mirroring
the strict `j-i > e1-e0` comparison in Go net.IP.String).  `cur` is the run
in progress as (start, length), `best` the best completed run. -/
def bestZeroRunAux : List Nat → Nat → Nat × Nat → Nat × Nat → Nat × Nat
  | [], _, best, cur => if best.2 < cur.2 then cur else best
  | g :: rest, i, best, cur =>
    if g = 0 then
      bestZeroRunAux rest (i + 1) best
        (if cur.2 = 0 then (i, 1) else (cur.1, cur.2 + 1))
    else
      bestZeroRunAux rest (i + 1) (if best.2 < cur.2 then cur else best) (0, 0)

/-- The zero run to compress with `::`, if any: the longest run, only when it
spans at least two groups (RFC 5952 / the `e1-e0 <= 2` rejection in Go). -/
def bestZeroRun (gs : List Nat) : Option (Nat × Nat) :=
  let b := bestZeroRunAux gs 0 (0, 0) (0, 0)
  if b.2 ≤ 1 then none else some b

/-- RFC 5952 rendering of eight groups (the 16-byte branch of Go
net.IP.String). -/
def ipStringV6 (gs : List Nat) : String :=
  match bestZeroRun gs with
  | none => String.intercalate ":" (gs.map hexGroupStr)
  | some (s, l) =>
    String.intercalate ":" ((gs.take s).map hexGroupStr) ++ "::" ++
      String.intercalate ":" ((gs.drop (s + l)).map hexGroupStr)

/-- Dotted-decimal rendering of four octets (the IPv4 branch of Go
net.IP.String). -/
def ipStringV4 (o : List Nat) : String :=
  String.intercalate "." (o.map (fun n => Nat.repr n))

/-- Models Go net.IP.String: "<nil>" for nil, dotted decimal for IPv4 and
IPv4-in-IPv6, RFC 5952 for 16-byte IPv6, "?"+hex for invalid lengths. -/
def ipString (ip : List Nat) : String :=
  if ip.isEmpty then "<nil>"
  else if (ipTo4 ip).length = 4 then ipStringV4 (ipTo4 ip)
  else if ip.length = 16 then ipStringV6 (ipGroups ip)
  else "?" ++ String.join (ip.map hexByte)

/-- `calculateCIDR64` (src/main.go:464-483): "" for nil, the placeholder
"::/64" for IPv4 addresses, and for IPv6 addresses the /64 built from the
first eight bytes rendered via net.IP.String. -/
def calculateCIDR64 (ip : List Nat) : String :=
  if ip.isEmpty then ""
  else if ¬ (ipTo4 ip).isEmpty then "::/64"
  else if ¬ (ipTo16 ip).isEmpty then
    ipString (ip.take 8 ++ List.replicate 8 0) ++ "/64"
  else ""

/-- The Go struct `DeviceInfo` (src/main.go:82). -/
structure DeviceInfo where
  Name : String
  IPv6Addr : List Nat
  Services : List String
deriving DecidableEq

/-- The Go struct `ThreadBorderRouter` (src/main.go:89). -/
structure ThreadBorderRouter where
  Name : String
  IPv6Addr : List Nat
  CIDR : String
deriving DecidableEq

/-- The Go struct `Route` (src/main.go:96). -/
structure Route where
  CIDR : String
  ThreadRouterIPv6 : String
  RouterName : String
deriving DecidableEq

/-- Insertion into a Go `map[string]bool` used as a set, modelled as an
insertion-ordered duplicate-free list. -/
def insertStringSet (s : List String) (x : String) : List String :=
  if s.contains x then s else s ++ [x]

/-- The CIDR filter applied by both collection loops of `generateRoutes`
(src/routes.go:20 and :28): non-empty, not the IPv4 placeholder, routable. -/
def keepCIDR (c : String) : Prop :=
  c ≠ "" ∧ c ≠ "::/64" ∧ isRoutableCIDR c = true

instance (c : String) : Decidable (keepCIDR c) := by
  unfold keepCIDR; infer_instance

/-- First loop of `generateRoutes` (src/routes.go:17-23): the distinct device
/64 CIDRs passing the filter (`deviceCIDRs` map used as a set). -/
def collectDeviceCIDRs (devices : List DeviceInfo) (acc : List String) :
    List String :=
  devices.foldl (fun acc device =>
    if keepCIDR (calculateCIDR64 device.IPv6Addr)
    then insertStringSet acc (calculateCIDR64 device.IPv6Addr) else acc) acc

/-- Second loop of `generateRoutes` (src/routes.go:26-31): the distinct
router-advertised CIDRs passing the same filter. -/
def collectRouterCIDRs (routers : List ThreadBorderRouter) (acc : List String) :
    List String :=
  routers.foldl (fun acc router =>
    if keepCIDR router.CIDR then insertStringSet acc router.CIDR else acc) acc

/-- Inner loop of `generateRoutes` (src/routes.go:40-52): one route per
router with a routable address, keyed `deviceCIDR->routerIP` into `routeMap`. -/
def addRoutesForCIDR (routers : List ThreadBorderRouter) (deviceCIDR : String)
    (m : List (String × Route)) : List (String × Route) :=
  routers.foldl (fun m router =>
    if isRoutableRouterAddress router.IPv6Addr = true then
      setKey m (deviceCIDR ++ "->" ++ ipString router.IPv6Addr)
        { CIDR := deviceCIDR
          ThreadRouterIPv6 := ipString router.IPv6Addr
          RouterName := router.Name }
    else m) m

/-- Outer loop of `generateRoutes` (src/routes.go:34-53): for each collected
device CIDR not present among the router CIDRs, add its routes. -/
def buildRouteGenMap (routerCIDRs : List String) (routers : List ThreadBorderRouter)
    (deviceCIDRs : List String) (m : List (String × Route)) :
    List (String × Route) :=
  deviceCIDRs.foldl (fun m deviceCIDR =>
    if routerCIDRs.contains deviceCIDR then m
    else addRoutesForCIDR routers deviceCIDR m) m

/-- `generateRoutes` (src/routes.go:12-60): collect the distinct routable
device /64s and router /64s, and for every device CIDR that is not a router
CIDR emit one route per router with a routable address, deduplicated by the
`deviceCIDR->routerIP` key.  Go's unspecified map iteration order is modelled
as insertion order. -/
def generateRoutes (devices : List DeviceInfo) (routers : List ThreadBorderRouter) :
    List Route :=
  (buildRouteGenMap (collectRouterCIDRs routers []) routers
    (collectDeviceCIDRs devices []) []).map Prod.snd

theorem insertStringSet_mem (s : List String) (x y : String)
    (h : y ∈ insertStringSet s x) : y ∈ s ∨ y = x := by
  rw [insertStringSet] at h
  split at h
  · exact Or.inl h
  · rcases List.mem_append.mp h with h1 | h2
    · exact Or.inl h1
    · exact Or.inr (List.mem_singleton.mp h2)

theorem insertStringSet_self (s : List String) (x : String) :
    x ∈ insertStringSet s x := by
  rw [insertStringSet]
  split
  · next hc => exact (mem_iff_contains s x).mp hc
  · exact List.mem_append.mpr (Or.inr (List.mem_singleton.mpr rfl))

theorem insertStringSet_mono (s : List String) (x y : String)
    (h : y ∈ s) : y ∈ insertStringSet s x := by
  rw [insertStringSet]
  split
  · exact h
  · exact List.mem_append.mpr (Or.inl h)

theorem collectDeviceCIDRs_keep (devices : List DeviceInfo) :
    ∀ (acc : List String), (∀ c ∈ acc, keepCIDR c) →
      ∀ c ∈ collectDeviceCIDRs devices acc, keepCIDR c := by
  induction devices with
  | nil => intro acc hacc c hc; exact hacc c hc
  | cons d rest ih =>
    intro acc hacc c hc
    refine ih _ ?_ c hc
    intro c' hc'
    dsimp only at hc'
    split at hc'
    · next hkeep =>
      rcases insertStringSet_mem acc _ c' hc' with h1 | h2
      · exact hacc c' h1
      · exact h2 ▸ hkeep
    · exact hacc c' hc'

theorem collectRouterCIDRs_mono (routers : List ThreadBorderRouter) :
    ∀ (acc : List String) (c : String), c ∈ acc →
      c ∈ collectRouterCIDRs routers acc := by
  induction routers with
  | nil => intro acc c h; exact h
  | cons r rest ih =>
    intro acc c h
    refine ih _ c ?_
    dsimp only
    split
    · exact insertStringSet_mono acc _ c h
    · exact h

theorem collectRouterCIDRs_complete (routers : List ThreadBorderRouter) :
    ∀ (acc : List String) (router : ThreadBorderRouter), router ∈ routers →
      keepCIDR router.CIDR → router.CIDR ∈ collectRouterCIDRs routers acc := by
  induction routers with
  | nil => intro acc router h; exact absurd h (List.not_mem_nil router)
  | cons r rest ih =>
    intro acc router hmem hkeep
    rcases List.mem_cons.mp hmem with he | hrest
    · subst he
      refine collectRouterCIDRs_mono rest _ _ ?_
      dsimp only
      split
      · exact insertStringSet_self acc router.CIDR
      · next hk => exact absurd hkeep hk
    · exact ih _ router hrest hkeep

theorem setKey_values_mem {α : Type} (m : List (String × α)) (k : String) (v : α) :
    ∀ x, x ∈ (setKey m k v).map Prod.snd → x ∈ m.map Prod.snd ∨ x = v := by
  induction m with
  | nil =>
    intro x h
    rw [setKey, List.map_cons, List.map_nil] at h
    exact Or.inr (List.mem_singleton.mp h)
  | cons p rest ih =>
    obtain ⟨k', v'⟩ := p
    intro x h
    by_cases hk : k' = k
    · rw [setKey, if_pos hk, List.map_cons] at h
      rcases List.mem_cons.mp h with he | htail
      · exact Or.inr he
      · refine Or.inl ?_
        rw [List.map_cons]
        exact List.mem_cons_of_mem _ htail
    · rw [setKey, if_neg hk, List.map_cons] at h
      rcases List.mem_cons.mp h with rfl | htail
      · refine Or.inl ?_
        rw [List.map_cons]
        exact List.mem_cons_self _ _
      · rcases ih x htail with h1 | h2
        · refine Or.inl ?_
          rw [List.map_cons]
          exact List.mem_cons_of_mem _ h1
        · exact Or.inr h2

theorem addRoutesForCIDR_values (routers : List ThreadBorderRouter) (dc : String) :
    ∀ (m : List (String × Route)) (rt : Route),
      rt ∈ (addRoutesForCIDR routers dc m).map Prod.snd →
      rt ∈ m.map Prod.snd ∨ rt.CIDR = dc := by
  induction routers with
  | nil => intro m rt h; exact Or.inl h
  | cons router rest ih =>
    intro m rt h
    by_cases hr : isRoutableRouterAddress router.IPv6Addr = true
    · have h' : rt ∈ (addRoutesForCIDR rest dc
          (setKey m (dc ++ "->" ++ ipString router.IPv6Addr)
            { CIDR := dc
              ThreadRouterIPv6 := ipString router.IPv6Addr
              RouterName := router.Name })).map Prod.snd := by
        rw [addRoutesForCIDR] at h ⊢
        rw [List.foldl_cons, if_pos hr] at h
        exact h
      rcases ih _ rt h' with h1 | h2
      · rcases setKey_values_mem m _ _ rt h1 with h3 | h4
        · exact Or.inl h3
        · exact Or.inr (by rw [h4])
      · exact Or.inr h2
    · have h' : rt ∈ (addRoutesForCIDR rest dc m).map Prod.snd := by
        rw [addRoutesForCIDR] at h ⊢
        rw [List.foldl_cons, if_neg hr] at h
        exact h
      exact ih m rt h'

theorem buildRouteGenMap_cons (routerCIDRs : List String)
    (routers : List ThreadBorderRouter) (dc : String) (rest : List String)
    (m : List (String × Route)) :
    buildRouteGenMap routerCIDRs routers (dc :: rest) m =
      buildRouteGenMap routerCIDRs routers rest
        (if routerCIDRs.contains dc = true then m
         else addRoutesForCIDR routers dc m) := by
  rw [buildRouteGenMap, buildRouteGenMap, List.foldl_cons]

theorem buildRouteGenMap_values (routerCIDRs : List String)
    (routers : List ThreadBorderRouter) (dcs : List String) :
    ∀ (m : List (String × Route)),
      (∀ c ∈ dcs, keepCIDR c) →
      (∀ rt ∈ m.map Prod.snd,
        keepCIDR rt.CIDR ∧ routerCIDRs.contains rt.CIDR = false) →
      ∀ rt ∈ (buildRouteGenMap routerCIDRs routers dcs m).map Prod.snd,
        keepCIDR rt.CIDR ∧ routerCIDRs.contains rt.CIDR = false := by
  induction dcs with
  | nil => intro m _ hm rt h; exact hm rt h
  | cons dc rest ih =>
    intro m hdcs hm rt h
    rw [buildRouteGenMap_cons] at h
    have hdc : keepCIDR dc := hdcs dc (List.mem_cons_self dc rest)
    have hrest : ∀ c ∈ rest, keepCIDR c :=
      fun c hc => hdcs c (List.mem_cons_of_mem dc hc)
    by_cases hc : routerCIDRs.contains dc = true
    · rw [if_pos hc] at h
      exact ih m hrest hm rt h
    · rw [if_neg hc] at h
      refine ih _ hrest ?_ rt h
      intro rt' h'
      rcases addRoutesForCIDR_values routers dc m rt' h' with h1 | h2
      · exact hm rt' h1
      · rw [h2]
        exact ⟨hdc, by rw [← Bool.not_eq_true]; exact hc⟩

/-- C4: for every list of devices and routers, `generateRoutes` contains no
route whose CIDR equals any router's advertised CIDR; the exclusion is the
structural string equality test of the device /64 against the collected
router CIDRs. -/
theorem generateRoutes_excludes_router_cidrs
    (devices : List DeviceInfo) (routers : List ThreadBorderRouter)
    (rt : Route) (hrt : rt ∈ generateRoutes devices routers)
    (router : ThreadBorderRouter) (hr : router ∈ routers) :
    rt.CIDR ≠ router.CIDR := by
  intro heq
  have hdev : ∀ c ∈ collectDeviceCIDRs devices [], keepCIDR c :=
    collectDeviceCIDRs_keep devices []
      (fun c hc => absurd hc (List.not_mem_nil c))
  have hq := buildRouteGenMap_values (collectRouterCIDRs routers []) routers
    (collectDeviceCIDRs devices []) [] hdev
    (fun rt' h' => absurd h' (List.not_mem_nil rt')) rt hrt
  have hkeep : keepCIDR router.CIDR := heq ▸ hq.1
  have hmem : router.CIDR ∈ collectRouterCIDRs routers [] :=
    collectRouterCIDRs_complete routers [] router hr hkeep
  have hcontains := (mem_iff_contains _ _).mpr hmem
  rw [← heq, hq.2] at hcontains
  exact Bool.noConfusion hcontains

/-- Concrete discovered device (Matter device on a unique-local /64). -/
def sampleDevice : DeviceInfo :=
  { Name := "air-purifier", IPv6Addr := parseIP "fd00:1111:2222:3333::1"
    Services := [] }

/-- Concrete Thread border router with a global address on its own /64. -/
def sampleRouter : ThreadBorderRouter :=
  { Name := "hub", IPv6Addr := parseIP "2001:4860:4860:1234::fe"
    CIDR := "2001:4860:4860:1234::/64" }

/-- The route `generateRoutes` emits for the sample device via the sample
router. -/
def sampleGenRoute : Route :=
  { CIDR := "fd00:1111:2222:3333::/64"
    ThreadRouterIPv6 := "2001:4860:4860:1234::fe"
    RouterName := "hub" }

/-- C4 witness: evaluated on a concrete device and router; the emitted route's
prefix differs from the router's advertised prefix. -/
theorem generateRoutes_excludes_router_cidrs_witness :
    sampleGenRoute ∈ generateRoutes [sampleDevice] [sampleRouter] ∧
    sampleGenRoute.CIDR ≠ sampleRouter.CIDR :=
  ⟨by decide,
    generateRoutes_excludes_router_cidrs [sampleDevice] [sampleRouter]
      sampleGenRoute (by decide) sampleRouter (by decide)⟩

/-- C8: the concrete classifier values of the spec hold: the link-local /64
is not routable, the unique-local /64 is routable as a prefix, the
unique-local address is rejected as a next hop, the global address is
accepted as a next hop. -/
theorem classifier_concrete_values :
    isRoutableCIDR "fe80::/64" = false ∧
    isRoutableCIDR "fd00:1234:5678:9abc::/64" = true ∧
    isRoutableRouterAddress (parseIP "fd00::1") = false ∧
    isRoutableRouterAddress (parseIP "2001:4860:4860::8888") = true := by
  decide
